import Mathlib

/-!
Shallow embedding of the interactive research workflow driver
(`run_interactive_research_workflow.py`): the client-side session driver that
resolves (resumes or starts) a workflow run, submits the initial query, drives
the clarification Q&A loop by polling status snapshots, and fetches the final
result.  The external workflow engine and the user are modelled as response
streams; the driver's observable calls are recorded in a trace of events.
-/

namespace InteractiveResearch

/-! ### String helpers mirroring Python `str.strip`, `str.lower` -/

/-- Characters of `l` with leading and trailing whitespace removed
(Python `str.strip()`), on the character-list representation. -/
def trimChars (l : List Char) : List Char :=
  ((l.dropWhile Char.isWhitespace).reverse.dropWhile Char.isWhitespace).reverse

/-- Python `str.strip()`. -/
def strip (s : String) : String := String.mk (trimChars s.toList)

/-- Python `str.lower()`. -/
def lower (s : String) : String := String.mk (s.toList.map Char.toLower)

/-! ### Status vocabulary used by the driver -/

/-- Statuses the driver treats as terminal when deciding whether an existing
run is resumable (line 36 of the source). -/
def terminalStatuses : List String :=
  ["completed", "failed", "timed_out", "terminated", "canceled"]

/-- The error subset of the terminal statuses (run-terminal errors). -/
def errorTerminalStatuses : List String :=
  ["failed", "timed_out", "terminated", "canceled"]

/-- Statuses entering the inner Q&A loop (line 84 of the source). -/
def questionStatuses : List String :=
  ["awaiting_clarifications", "collecting_answers"]

/-- User inputs (case-insensitive, trimmed) that end the session (line 99). -/
def exitVocabulary : List String := ["exit", "quit", "end", "done"]

/-- Coarse (engine-level) execution statuses the driver regards as still
running (line 139 of the source). -/
def runningCoarseStatuses : List String := ["RUNNING", "CONTINUED_AS_NEW"]

/-! ### Data model -/

/-- A point-in-time view of the remote run's state, as returned by the
`get_status` query and by the update calls. -/
structure Snapshot where
  status : String
  clarification_questions : Option (List String) := none
  current_question_index : Nat := 0
  final_result : Option String := none
deriving Repr, DecidableEq

/-- Modelled from the spec: the snapshot accessor `get_current_question` lives
in `research_models` (not under `src/`); per the spec it returns "the question
at `current_question_index` if that index is within bounds of
`clarification_questions`, else none". -/
def Snapshot.get_current_question (s : Snapshot) : Option String :=
  (s.clarification_questions.getD []).get? s.current_question_index

/-- An observable call the driver makes against the engine or the user. -/
inductive Event
  | getHandle (workflow_id : String)
  | queryStatus
  | startWorkflow (workflow_id : String)
  | updateStartResearch (query : String)
  | updateClarification (question_index : Nat) (answer : String)
  | signalEnd
  | describe
  | sleep (seconds : Nat)
  | readInput
  | fetchResult
deriving Repr, DecidableEq

/-- Fixed, per-session responses of the environment: whether handle lookup and
workflow start succeed, the timestamp token used to build a fresh run id, and
the final result payload. -/
structure Env where
  getHandleOk : Bool
  startOk : Bool
  timeToken : Nat
  resultVal : String
deriving Repr, DecidableEq

instance {ε α : Type} [DecidableEq ε] [DecidableEq α] : DecidableEq (Except ε α) :=
  fun x y =>
    match x, y with
    | Except.error a, Except.error b =>
        if h : a = b then isTrue (by rw [h])
        else isFalse (by intro hh; injection hh; exact h ‹_›)
    | Except.ok a, Except.ok b =>
        if h : a = b then isTrue (by rw [h])
        else isFalse (by intro hh; injection hh; exact h ‹_›)
    | Except.error _, Except.ok _ => isFalse (by intro hh; exact Except.noConfusion hh)
    | Except.ok _, Except.error _ => isFalse (by intro hh; exact Except.noConfusion hh)

/-- Driver-visible interaction state: the environment's pending responses
(status queries, start-research updates, clarification updates, user input
lines, coarse describe statuses), each consumed in call order, plus the trace
of calls made so far.  An exhausted response stream behaves as the
corresponding call raising an exception. -/
structure St where
  queryResps : List (Except Unit (Option Snapshot))
  startResearchResps : List (Except Unit Snapshot)
  clarResps : List (Except Unit Snapshot)
  inputs : List String
  describeResps : List String
  trace : List Event
deriving Repr, DecidableEq

/-- Record one observable call. -/
def St.emit (st : St) (e : Event) : St := { st with trace := st.trace ++ [e] }

/-- Consume the next `get_status` query response; an exhausted stream is an
exception. -/
def St.nextQuery (st : St) : Except Unit (Option Snapshot) × St :=
  match st.queryResps with
  | [] => (Except.error (), st)
  | r :: rest => (r, { st with queryResps := rest })

/-- Consume the next `start_research` update response. -/
def St.nextStartResearch (st : St) : Except Unit Snapshot × St :=
  match st.startResearchResps with
  | [] => (Except.error (), st)
  | r :: rest => (r, { st with startResearchResps := rest })

/-- Consume the next `provide_single_clarification` update response. -/
def St.nextClar (st : St) : Except Unit Snapshot × St :=
  match st.clarResps with
  | [] => (Except.error (), st)
  | r :: rest => (r, { st with clarResps := rest })

/-- Consume the next user input line; `none` means reading input raised. -/
def St.nextInput (st : St) : Option String × St :=
  match st.inputs with
  | [] => (none, st)
  | r :: rest => (some r, { st with inputs := rest })

/-- Consume the next coarse `describe` status; `none` means `describe`
raised. -/
def St.nextDescribe (st : St) : Option String × St :=
  match st.describeResps with
  | [] => (none, st)
  | r :: rest => (some r, { st with describeResps := rest })

/-! ### resolve_or_start (source lines 27-61) -/

/-- The fresh identifier used when a new run is started: the original
workflow id, a dash, and the integer time token. -/
def uniqueId (workflow_id : String) (token : Nat) : String :=
  workflow_id ++ "-" ++ toString token

/-- Result of the resolve-or-start phase. -/
structure ResolveResult where
  hasHandle : Bool
  startedNew : Bool
  usedId : String
deriving Repr, DecidableEq

/-- Lines 27-61: try to obtain a handle for `workflow_id` and query its
status; reuse the run when the query returns a snapshot whose status is
non-terminal, otherwise (lookup failure, query failure, absent snapshot, or
terminal status) start a new run under a fresh unique id.  A start failure is
re-raised (`Except.error`). -/
def resolveOrStart (env : Env) (workflow_id : String) (st : St) :
    St × Except Unit ResolveResult :=
  let st := st.emit (Event.getHandle workflow_id)
  let p :=
    if env.getHandleOk then
      let st := st.emit Event.queryStatus
      let (r, st) := st.nextQuery
      match r with
      | Except.ok (some status) =>
          if status.status ∈ terminalStatuses then (true, true, st)
          else (true, false, st)
      | Except.ok none => (true, true, st)
      | Except.error _ => (true, true, st)
    else (false, true, st)
  let hasHandle := p.1
  let start_new := p.2.1
  let st := p.2.2
  if start_new then
    let uid := uniqueId workflow_id env.timeToken
    let st := st.emit (Event.startWorkflow uid)
    if env.startOk then (st, Except.ok ⟨true, true, uid⟩)
    else (st, Except.error ())
  else (st, Except.ok ⟨hasHandle, false, workflow_id⟩)

/-! ### ensure_started (source lines 66-72) -/

/-- The `execute_update(start_research, UserQueryInput(query))` call; a
failure of the update propagates out of the driver (it is outside the
polling loop's try block). -/
def submitStartResearch (query : String) (st : St) : St × Except Unit Unit :=
  let st := st.emit (Event.updateStartResearch query)
  let (u, st) := st.nextStartResearch
  match u with
  | Except.error _ => (st, Except.error ())
  | Except.ok _ => (st, Except.ok ())

/-- Lines 66-72: query the status; submit the initial query via the
`start_research` update only when the snapshot is absent or its status is
`pending`.  A query failure propagates (it is outside any try block). -/
def ensureStarted (query : String) (st : St) : St × Except Unit Unit :=
  let st := st.emit Event.queryStatus
  let (r, st) := st.nextQuery
  match r with
  | Except.error _ => (st, Except.error ())
  | Except.ok none => submitStartResearch query st
  | Except.ok (some cs) =>
      if cs.status = "pending" then submitStartResearch query st
      else (st, Except.ok ())

/-! ### The inner Q&A loop (source lines 90-111) -/

/-- How one run of the inner Q&A loop ends. -/
inductive QaOut
  | done (snapshot : Snapshot)
  | earlyExit
  | errCaught
  | fuelOut
deriving Repr, DecidableEq

/-- Lines 90-111: while the working snapshot has a current question, read an
answer; exit-vocabulary answers send the end-workflow signal and abandon the
driver; otherwise submit the (trimmed, sentinel-defaulted) answer at the
snapshot's `current_question_index` and continue from the returned snapshot.
A raised input read or update is handed to the outer loop's handler
(`errCaught`). -/
def qaLoop (status : Snapshot) (st : St) : Nat → St × QaOut
  | 0 => (st, QaOut.fuelOut)
  | fuel + 1 =>
    match status.get_current_question with
    | none => (st, QaOut.done status)
    | some _current_question =>
        let st := st.emit Event.readInput
        let (inp, st) := st.nextInput
        match inp with
        | none => (st, QaOut.errCaught)
        | some line =>
            let answer := strip line
            if lower answer ∈ exitVocabulary then
              let st := st.emit Event.signalEnd
              (st, QaOut.earlyExit)
            else
              let submitted := if answer = "" then "No specific preference" else answer
              let st := st.emit
                (Event.updateClarification status.current_question_index submitted)
              let (u, st) := st.nextClar
              match u with
              | Except.error _ => (st, QaOut.errCaught)
              | Except.ok newStatus => qaLoop newStatus st fuel

/-! ### The outer polling loop (source lines 75-142) -/

/-- How the polling loop ends. -/
inductive LoopOut
  | toResult
  | earlyExit
  | terminalExit
  | raised
  | fuelOut
deriving Repr, DecidableEq

/-- Lines 136-139: inside the exception handler, ask the engine for the run's
coarse execution status; `some b` says whether it is still running, `none`
means `describe` itself raised (which propagates). -/
def describeCheck (st : St) : St × Option Bool :=
  let st := st.emit Event.describe
  let (d, st) := st.nextDescribe
  match d with
  | none => (st, none)
  | some coarse => (st, some (coarse ∈ runningCoarseStatuses))

/-- Lines 75-142: poll the status and dispatch: question statuses enter the
inner Q&A loop; `researching` and `completed` break toward the blocking
result fetch; `pending` and any other status sleep and re-poll; an absent
snapshot sleeps one unit and re-polls; an exception in the iteration runs the
coarse-status check, returning `terminalExit` when the run is not running and
otherwise sleeping and retrying. -/
def pollLoop (st : St) : Nat → St × LoopOut
  | 0 => (st, LoopOut.fuelOut)
  | fuel + 1 =>
    let st := st.emit Event.queryStatus
    let (r, st) := st.nextQuery
    match r with
    | Except.error _ =>
        (match describeCheck st with
         | (st, none) => (st, LoopOut.raised)
         | (st, some false) => (st, LoopOut.terminalExit)
         | (st, some true) => pollLoop (st.emit (Event.sleep 2)) fuel)
    | Except.ok none => pollLoop (st.emit (Event.sleep 1)) fuel
    | Except.ok (some status) =>
        if status.status ∈ questionStatuses then
          match qaLoop status st fuel with
          | (st, QaOut.done _) => pollLoop st fuel
          | (st, QaOut.earlyExit) => (st, LoopOut.earlyExit)
          | (st, QaOut.fuelOut) => (st, LoopOut.fuelOut)
          | (st, QaOut.errCaught) =>
              (match describeCheck st with
               | (st, none) => (st, LoopOut.raised)
               | (st, some false) => (st, LoopOut.terminalExit)
               | (st, some true) => pollLoop (st.emit (Event.sleep 2)) fuel)
        else if status.status = "researching" then (st, LoopOut.toResult)
        else if status.status = "completed" then (st, LoopOut.toResult)
        else if status.status = "pending" then pollLoop (st.emit (Event.sleep 2)) fuel
        else pollLoop (st.emit (Event.sleep 2)) fuel

/-! ### The full driver (source lines 20-153) -/

/-- The driver's overall outcome. -/
inductive Outcome
  | resultReturned (r : String)
  | earlyExit
  | terminalExit
  | startFailure
  | noHandleError
  | raised
  | fuelOut
deriving Repr, DecidableEq

/-- The driver `run_interactive_research_with_clarifications`: resolve or start a run,
ensure the research is started, run the polling loop and, if the loop breaks
toward the result, block on the result fetch and return the payload. -/
def run_interactive_research_with_clarifications (env : Env)
    (_query workflow_id : String) (st : St) (fuel : Nat) : St × Outcome :=
  match resolveOrStart env workflow_id st with
  | (st, Except.error _) => (st, Outcome.startFailure)
  | (st, Except.ok res) =>
    if ¬res.hasHandle then (st, Outcome.noHandleError)
    else
      match ensureStarted _query st with
      | (st, Except.error _) => (st, Outcome.raised)
      | (st, Except.ok _) =>
          match pollLoop st fuel with
          | (st, LoopOut.toResult) =>
              let st := st.emit Event.fetchResult
              (st, Outcome.resultReturned env.resultVal)
          | (st, LoopOut.earlyExit) => (st, Outcome.earlyExit)
          | (st, LoopOut.terminalExit) => (st, Outcome.terminalExit)
          | (st, LoopOut.raised) => (st, Outcome.raised)
          | (st, LoopOut.fuelOut) => (st, Outcome.fuelOut)

/-- Lines 157-159: the legacy entry point delegates to
`run_interactive_research_with_clarifications` unchanged. -/
def run_interactive_research (env : Env) (query workflow_id : String)
    (st : St) (fuel : Nat) : St × Outcome :=
  run_interactive_research_with_clarifications env query workflow_id st fuel

/-! ### parse_clarifications (source lines 198-205) -/

/-- Split a character list at the first `'='`: `none` when the list has no
`'='`, otherwise the part before and the part after the first occurrence
(Python `arg.split("=", 1)` guarded by `"=" in arg`). -/
def splitFirstEq : List Char → Option (List Char × List Char)
  | [] => none
  | c :: rest =>
    if c = '=' then some ([], rest)
    else
      match splitFirstEq rest with
      | none => none
      | some (k, v) => some (c :: k, v)

/-- Parse one argument into a key/value pair when it contains `"="`. -/
def parseArg (arg : String) : Option (String × String) :=
  match splitFirstEq arg.toList with
  | none => none
  | some (k, v) => some (String.mk k, String.mk v)

/-- Python dict assignment `responses[key] = value`: replace the value in
place when the key exists, else append. -/
def upsert (responses : List (String × String)) (key value : String) :
    List (String × String) :=
  if responses.any (fun p => p.1 = key) then
    responses.map (fun p => if p.1 = key then (key, value) else p)
  else responses ++ [(key, value)]

/-- Lines 198-205: build the responses dict from the argument list, skipping
arguments without `"="`. -/
def parse_clarifications (clarification_args : List String) :
    List (String × String) :=
  clarification_args.foldl
    (fun responses arg =>
      match parseArg arg with
      | none => responses
      | some kv => upsert responses kv.1 kv.2) []

/-! ### Auxiliary definitions used by the verification -/

/-- An event that is neither the blocking result fetch nor a clarification
update carrying an empty answer. -/
def safeEvent (e : Event) : Prop :=
  e ≠ Event.fetchResult ∧ ∀ i, e ≠ Event.updateClarification i ""

/-- Whether an event is a workflow start. -/
def isStartEvent : Event → Bool
  | Event.startWorkflow _ => true
  | _ => false

/-- The condition under which the source reuses the existing run: handle
lookup succeeds and the pending status query returns a snapshot whose status
is not terminal. -/
def resumableCond (env : Env) (st : St) : Prop :=
  env.getHandleOk = true ∧
    ∃ s rest, st.queryResps = Except.ok (some s) :: rest ∧
      s.status ∉ terminalStatuses

/-- The start condition exactly as the claim words it: handle acquisition
fails, the status query fails, or the returned status is terminal. -/
def claimedStartCondition (env : Env) (st : St) : Prop :=
  env.getHandleOk = false ∨
    st.queryResps.head? = none ∨
    st.queryResps.head? = some (Except.error ()) ∨
    ∃ s, st.queryResps.head? = some (Except.ok (some s)) ∧
      s.status ∈ terminalStatuses

/-- The state after resolve-or-start's probing phase (handle lookup and, when
it succeeds, the status query), before any new run is started. -/
def afterProbe (env : Env) (workflow_id : String) (st : St) : St :=
  let st := st.emit (Event.getHandle workflow_id)
  if env.getHandleOk then ((st.emit Event.queryStatus).nextQuery).2 else st

/-- Repeated invocation of `ensureStarted` with the same query. -/
def ensureStartedIter (query : String) : Nat → St → St
  | 0, st => st
  | n + 1, st => ensureStartedIter query n (ensureStarted query st).1

/-- An interaction state with no pending responses and an empty trace. -/
def emptySt : St :=
  { queryResps := [], startResearchResps := [], clarResps := [], inputs := [],
    describeResps := [], trace := [] }

/-! ## Helper lemmas -/

lemma nextQuery_trace (st : St) : (St.nextQuery st).2.trace = st.trace := by
  rcases st with ⟨q, sr, c, i, d, t⟩
  cases q <;> rfl

lemma resolveOrStart_resumable (env : Env) (wid : String) (st : St)
    (h : resumableCond env st) :
    resolveOrStart env wid st =
      ({ st with queryResps := st.queryResps.tail,
                 trace := st.trace ++ [Event.getHandle wid, Event.queryStatus] },
        Except.ok ⟨true, false, wid⟩) := by
  obtain ⟨hg, s, rest, hq, hs⟩ := h
  simp [resolveOrStart, St.emit, St.nextQuery, hg, hq, hs]

lemma resolveOrStart_start (env : Env) (wid : String) (st : St)
    (h : ¬ resumableCond env st) :
    resolveOrStart env wid st =
      (let st1 := (afterProbe env wid st).emit
          (Event.startWorkflow (uniqueId wid env.timeToken))
       if env.startOk then
         (st1, Except.ok ⟨true, true, uniqueId wid env.timeToken⟩)
       else (st1, Except.error ())) := by
  by_cases hg : env.getHandleOk
  · cases hq : st.queryResps with
    | nil => simp [resolveOrStart, afterProbe, St.emit, St.nextQuery, hg, hq]
    | cons r rest =>
      cases r with
      | error u => simp [resolveOrStart, afterProbe, St.emit, St.nextQuery, hg, hq]
      | ok o =>
        cases o with
        | none => simp [resolveOrStart, afterProbe, St.emit, St.nextQuery, hg, hq]
        | some s =>
          by_cases hs : s.status ∈ terminalStatuses
          · simp [resolveOrStart, afterProbe, St.emit, St.nextQuery, hg, hq, hs]
          · exact absurd ⟨hg, s, rest, hq, hs⟩ h
  · simp only [Bool.not_eq_true] at hg
    simp [resolveOrStart, afterProbe, St.emit, St.nextQuery, hg]

lemma resolveOrStart_fst_trace_start (env : Env) (wid : String) (st : St)
    (h : ¬ resumableCond env st) :
    (resolveOrStart env wid st).1.trace =
      (afterProbe env wid st).trace ++
        [Event.startWorkflow (uniqueId wid env.timeToken)] := by
  rw [resolveOrStart_start env wid st h]
  by_cases hs : env.startOk <;> simp [hs, St.emit]

lemma afterProbe_trace (env : Env) (wid : String) (st : St) :
    (afterProbe env wid st).trace =
      st.trace ++
        (if env.getHandleOk then [Event.getHandle wid, Event.queryStatus]
         else [Event.getHandle wid]) := by
  by_cases hg : env.getHandleOk <;>
    simp [afterProbe, St.emit, nextQuery_trace, hg]

lemma nextStartResearch_trace (st : St) :
    (St.nextStartResearch st).2.trace = st.trace := by
  rcases st with ⟨q, sr, c, i, d, t⟩
  cases sr <;> rfl

lemma submitStartResearch_trace (query : String) (st : St) :
    (submitStartResearch query st).1.trace =
      st.trace ++ [Event.updateStartResearch query] := by
  rcases st with ⟨q, sr, c, i, d, t⟩
  cases sr with
  | nil => simp [submitStartResearch, St.emit, St.nextStartResearch]
  | cons r tail =>
    cases r <;> simp [submitStartResearch, St.emit, St.nextStartResearch]

lemma ensureStarted_eq_empty (query : String) (st : St)
    (h : st.queryResps = []) :
    ensureStarted query st =
      ({ st with trace := st.trace ++ [Event.queryStatus] }, Except.error ()) := by
  simp [ensureStarted, St.emit, St.nextQuery, h]

lemma ensureStarted_eq_err (query : String) (st : St)
    (rest : List (Except Unit (Option Snapshot)))
    (h : st.queryResps = Except.error () :: rest) :
    ensureStarted query st =
      ({ st with queryResps := rest, trace := st.trace ++ [Event.queryStatus] },
        Except.error ()) := by
  simp [ensureStarted, St.emit, St.nextQuery, h]

lemma ensureStarted_eq_nonpending (query : String) (st : St) (s : Snapshot)
    (rest : List (Except Unit (Option Snapshot)))
    (hq : st.queryResps = Except.ok (some s) :: rest)
    (hs : s.status ≠ "pending") :
    ensureStarted query st =
      ({ st with queryResps := rest, trace := st.trace ++ [Event.queryStatus] },
        Except.ok ()) := by
  simp [ensureStarted, St.emit, St.nextQuery, hq, hs]

lemma ensureStarted_trace_submit (query : String) (st : St)
    (h : (∃ rest, st.queryResps = Except.ok none :: rest) ∨
      (∃ s rest, st.queryResps = Except.ok (some s) :: rest ∧
        s.status = "pending")) :
    (ensureStarted query st).1.trace =
      st.trace ++ [Event.queryStatus, Event.updateStartResearch query] := by
  rcases h with ⟨rest, hq⟩ | ⟨s, rest, hq, hs⟩
  · simp [ensureStarted, St.emit, St.nextQuery, hq, submitStartResearch_trace]
  · simp [ensureStarted, St.emit, St.nextQuery, hq, hs, submitStartResearch_trace]

lemma ensureStartedIter_no_submit (query : String) :
    ∀ (n : Nat) (st : St),
      (∀ q', Event.updateStartResearch q' ∉ st.trace) →
      (∀ r ∈ st.queryResps.take n,
        ∃ s, r = Except.ok (some s) ∧ s.status ≠ "pending") →
      ∀ q', Event.updateStartResearch q' ∉ (ensureStartedIter query n st).trace := by
  intro n
  induction n with
  | zero => intro st h0 _ q'; exact h0 q'
  | succ m ih =>
    intro st h0 hall q'
    cases hqr : st.queryResps with
    | nil =>
      rw [ensureStartedIter, ensureStarted_eq_empty query st hqr]
      refine ih _ (fun q'' h'' => ?_) (by simp [hqr]) q'
      simp only [List.mem_append, List.mem_cons, List.not_mem_nil, or_false] at h''
      rcases h'' with h'' | h''
      · exact h0 q'' h''
      · exact Event.noConfusion h''
    | cons r rest =>
      obtain ⟨s, hr, hs⟩ := hall r (by rw [hqr]; simp)
      subst hr
      rw [ensureStartedIter, ensureStarted_eq_nonpending query st s rest hqr hs]
      refine ih _ (fun q'' h'' => ?_) (fun r' hr' => ?_) q'
      · simp only [List.mem_append, List.mem_cons, List.not_mem_nil,
          or_false] at h''
        rcases h'' with h'' | h''
        · exact h0 q'' h''
        · exact Event.noConfusion h''
      · refine hall r' ?_
        rw [hqr]
        simp only [List.take_succ_cons, List.mem_cons]
        exact Or.inr (by simpa using hr')

lemma mem_append_safe {l1 l2 : List Event} (e : Event) (h : e ∈ l1 ++ l2)
    (hs : ∀ x ∈ l2, safeEvent x) : e ∈ l1 ∨ safeEvent e := by
  rcases List.mem_append.mp h with h | h
  · exact Or.inl h
  · exact Or.inr (hs e h)

lemma qaLoop_done (status : Snapshot) (st : St) (fuel : Nat)
    (h : status.get_current_question = none) :
    qaLoop status st (fuel + 1) = (st, QaOut.done status) := by
  simp [qaLoop, h]

lemma qaLoop_input_exhausted (status : Snapshot) (st : St) (fuel : Nat)
    (q : String)
    (hq : status.get_current_question = some q)
    (hin : st.inputs = []) :
    qaLoop status st (fuel + 1) =
      ({ st with trace := st.trace ++ [Event.readInput] }, QaOut.errCaught) := by
  simp [qaLoop, hq, St.emit, St.nextInput, hin]

lemma qaLoop_exit (status : Snapshot) (st : St) (fuel : Nat) (q line : String)
    (rest : List String)
    (hq : status.get_current_question = some q)
    (hin : st.inputs = line :: rest)
    (hv : lower (strip line) ∈ exitVocabulary) :
    qaLoop status st (fuel + 1) =
      ({ st with inputs := rest,
                 trace := st.trace ++ [Event.readInput, Event.signalEnd] },
        QaOut.earlyExit) := by
  simp [qaLoop, hq, St.emit, St.nextInput, hin, hv]

lemma qaLoop_submit_empty (status : Snapshot) (st : St) (fuel : Nat)
    (q line : String) (rest : List String)
    (hq : status.get_current_question = some q)
    (hin : st.inputs = line :: rest)
    (hv : lower (strip line) ∉ exitVocabulary)
    (hc : st.clarResps = []) :
    qaLoop status st (fuel + 1) =
      ({ st with inputs := rest,
                 trace := st.trace ++ [Event.readInput,
                   Event.updateClarification status.current_question_index
                     (if strip line = "" then "No specific preference"
                      else strip line)] },
        QaOut.errCaught) := by
  simp [qaLoop, hq, St.emit, St.nextInput, hin, hv, St.nextClar, hc]

lemma qaLoop_submit_err (status : Snapshot) (st : St) (fuel : Nat)
    (q line : String) (rest : List String)
    (crest : List (Except Unit Snapshot))
    (hq : status.get_current_question = some q)
    (hin : st.inputs = line :: rest)
    (hv : lower (strip line) ∉ exitVocabulary)
    (hc : st.clarResps = Except.error () :: crest) :
    qaLoop status st (fuel + 1) =
      ({ st with inputs := rest, clarResps := crest,
                 trace := st.trace ++ [Event.readInput,
                   Event.updateClarification status.current_question_index
                     (if strip line = "" then "No specific preference"
                      else strip line)] },
        QaOut.errCaught) := by
  simp [qaLoop, hq, St.emit, St.nextInput, hin, hv, St.nextClar, hc]

lemma qaLoop_submit_ok (status : Snapshot) (st : St) (fuel : Nat)
    (q line : String) (rest : List String) (ns : Snapshot)
    (crest : List (Except Unit Snapshot))
    (hq : status.get_current_question = some q)
    (hin : st.inputs = line :: rest)
    (hv : lower (strip line) ∉ exitVocabulary)
    (hc : st.clarResps = Except.ok ns :: crest) :
    qaLoop status st (fuel + 1) =
      qaLoop ns
        { st with inputs := rest, clarResps := crest,
                  trace := st.trace ++ [Event.readInput,
                    Event.updateClarification status.current_question_index
                      (if strip line = "" then "No specific preference"
                       else strip line)] } fuel := by
  simp [qaLoop, hq, St.emit, St.nextInput, hin, hv, St.nextClar, hc]

lemma qaLoop_trace_safe :
    ∀ (fuel : Nat) (status : Snapshot) (st : St) (e : Event),
      e ∈ (qaLoop status st fuel).1.trace → e ∈ st.trace ∨ safeEvent e := by
  intro fuel
  induction fuel with
  | zero => intro status st e h; exact Or.inl (by simpa [qaLoop] using h)
  | succ n ih =>
    intro status st e
    cases hq : status.get_current_question with
    | none => rw [qaLoop_done status st n hq]; exact fun h => Or.inl h
    | some q =>
      cases hin : st.inputs with
      | nil =>
        rw [qaLoop_input_exhausted status st n q hq hin]
        intro h
        refine mem_append_safe e h ?_
        intro x hx
        simp only [List.mem_cons, List.not_mem_nil, or_false] at hx
        subst hx
        simp [safeEvent]
      | cons line rest =>
        by_cases hv : lower (strip line) ∈ exitVocabulary
        · rw [qaLoop_exit status st n q line rest hq hin hv]
          intro h
          refine mem_append_safe e h ?_
          intro x hx
          simp only [List.mem_cons, List.not_mem_nil, or_false] at hx
          rcases hx with rfl | rfl <;> simp [safeEvent]
        · have hsub : (if strip line = "" then "No specific preference"
              else strip line) ≠ "" := by
            by_cases he : strip line = "" <;> simp [he]
          have hupd : safeEvent (Event.updateClarification
              status.current_question_index
              (if strip line = "" then "No specific preference"
               else strip line)) :=
            ⟨by simp, fun i => by simp [hsub]⟩
          cases hc : st.clarResps with
          | nil =>
            rw [qaLoop_submit_empty status st n q line rest hq hin hv hc]
            intro h
            refine mem_append_safe e h ?_
            intro x hx
            simp only [List.mem_cons, List.not_mem_nil, or_false] at hx
            rcases hx with rfl | rfl
            · simp [safeEvent]
            · exact hupd
          | cons r crest =>
            cases r with
            | error u =>
              cases u
              rw [qaLoop_submit_err status st n q line rest crest hq hin hv hc]
              intro h
              refine mem_append_safe e h ?_
              intro x hx
              simp only [List.mem_cons, List.not_mem_nil, or_false] at hx
              rcases hx with rfl | rfl
              · simp [safeEvent]
              · exact hupd
            | ok ns =>
              rw [qaLoop_submit_ok status st n q line rest ns crest hq hin hv hc]
              intro h
              rcases ih ns _ e h with h' | h'
              · refine mem_append_safe e h' ?_
                intro x hx
                simp only [List.mem_cons, List.not_mem_nil, or_false] at hx
                rcases hx with rfl | rfl
                · simp [safeEvent]
                · exact hupd
              · exact Or.inr h'

lemma describeCheck_empty (st : St) (hd : st.describeResps = []) :
    describeCheck st = ({ st with trace := st.trace ++ [Event.describe] }, none) := by
  simp [describeCheck, St.emit, St.nextDescribe, hd]

lemma describeCheck_cons (st : St) (d : String) (drest : List String)
    (hd : st.describeResps = d :: drest) :
    describeCheck st =
      ({ st with describeResps := drest,
                 trace := st.trace ++ [Event.describe] },
        some (decide (d ∈ runningCoarseStatuses))) := by
  simp [describeCheck, St.emit, St.nextDescribe, hd]

lemma pollLoop_exc (st : St) (fuel : Nat)
    (h : st.queryResps = [] ∨ ∃ rest, st.queryResps = Except.error () :: rest) :
    pollLoop st (fuel + 1) =
      (match describeCheck ((st.emit Event.queryStatus).nextQuery).2 with
       | (st2, none) => (st2, LoopOut.raised)
       | (st2, some false) => (st2, LoopOut.terminalExit)
       | (st2, some true) => pollLoop (st2.emit (Event.sleep 2)) fuel) := by
  rcases h with h | ⟨rest, h⟩ <;>
    simp [pollLoop, St.emit, St.nextQuery, h]

lemma pollLoop_absent_step (st : St) (fuel : Nat)
    (rest : List (Except Unit (Option Snapshot)))
    (h : st.queryResps = Except.ok none :: rest) :
    pollLoop st (fuel + 1) =
      pollLoop { st with queryResps := rest,
                         trace := st.trace ++ [Event.queryStatus, Event.sleep 1] } fuel := by
  simp [pollLoop, St.emit, St.nextQuery, h]

lemma pollLoop_question (st st1 : St) (fuel : Nat) (s : Snapshot)
    (rest : List (Except Unit (Option Snapshot)))
    (h : st.queryResps = Except.ok (some s) :: rest)
    (hs : s.status ∈ questionStatuses)
    (hst1 : st1 = { st with queryResps := rest,
                            trace := st.trace ++ [Event.queryStatus] }) :
    pollLoop st (fuel + 1) =
      (match qaLoop s st1 fuel with
       | (st2, QaOut.done _) => pollLoop st2 fuel
       | (st2, QaOut.earlyExit) => (st2, LoopOut.earlyExit)
       | (st2, QaOut.fuelOut) => (st2, LoopOut.fuelOut)
       | (st2, QaOut.errCaught) =>
           (match describeCheck st2 with
            | (st3, none) => (st3, LoopOut.raised)
            | (st3, some false) => (st3, LoopOut.terminalExit)
            | (st3, some true) => pollLoop (st3.emit (Event.sleep 2)) fuel)) := by
  subst hst1
  simp [pollLoop, St.emit, St.nextQuery, h, hs]

lemma pollLoop_break (st : St) (fuel : Nat) (s : Snapshot)
    (rest : List (Except Unit (Option Snapshot)))
    (h : st.queryResps = Except.ok (some s) :: rest)
    (hb : s.status = "researching" ∨ s.status = "completed") :
    pollLoop st (fuel + 1) =
      ({ st with queryResps := rest,
                 trace := st.trace ++ [Event.queryStatus] }, LoopOut.toResult) := by
  rcases hb with hb | hb <;>
    simp [pollLoop, St.emit, St.nextQuery, h, hb, questionStatuses]

lemma pollLoop_wait (st : St) (fuel : Nat) (s : Snapshot)
    (rest : List (Except Unit (Option Snapshot)))
    (h : st.queryResps = Except.ok (some s) :: rest)
    (hs : s.status ∉ questionStatuses)
    (hr : s.status ≠ "researching") (hc : s.status ≠ "completed") :
    pollLoop st (fuel + 1) =
      pollLoop { st with queryResps := rest,
                         trace := st.trace ++ [Event.queryStatus, Event.sleep 2] } fuel := by
  simp only [questionStatuses, List.mem_cons, List.not_mem_nil, or_false,
    not_or] at hs
  by_cases hp : s.status = "pending" <;>
    simp [pollLoop, St.emit, St.nextQuery, h, hs.1, hs.2, hr, hc, hp,
      questionStatuses]

lemma excBranch_trace_safe (st1 : St) (n : Nat)
    (ih : ∀ st e, e ∈ (pollLoop st n).1.trace → e ∈ st.trace ∨ safeEvent e)
    (e : Event)
    (h : e ∈ (match describeCheck st1 with
      | (st2, none) => (st2, LoopOut.raised)
      | (st2, some false) => (st2, LoopOut.terminalExit)
      | (st2, some true) => pollLoop (st2.emit (Event.sleep 2)) n).1.trace) :
    e ∈ st1.trace ∨ safeEvent e := by
  rcases hdc : describeCheck st1 with ⟨st2, ob⟩
  have hst2 : st2.trace = st1.trace ++ [Event.describe] := by
    cases hd : st1.describeResps with
    | nil =>
      rw [describeCheck_empty st1 hd] at hdc
      cases hdc
      rfl
    | cons d drest =>
      rw [describeCheck_cons st1 d drest hd] at hdc
      cases hdc
      rfl
  rw [hdc] at h
  have hdone : e ∈ st2.trace → e ∈ st1.trace ∨ safeEvent e := by
    intro h'
    rw [hst2] at h'
    refine mem_append_safe e h' ?_
    intro x hx
    simp only [List.mem_cons, List.not_mem_nil, or_false] at hx
    subst hx
    simp [safeEvent]
  cases ob with
  | none => exact hdone h
  | some b =>
    cases b with
    | false => exact hdone h
    | true =>
      have h' : e ∈ (pollLoop (st2.emit (Event.sleep 2)) n).1.trace := h
      rcases ih _ e h' with h'' | h''
      · simp only [St.emit] at h''
        rcases List.mem_append.mp h'' with h3 | h3
        · exact hdone h3
        · simp only [List.mem_cons, List.not_mem_nil, or_false] at h3
          subst h3
          exact Or.inr (by simp [safeEvent])
      · exact Or.inr h''

lemma pollLoop_trace_safe :
    ∀ (fuel : Nat) (st : St) (e : Event),
      e ∈ (pollLoop st fuel).1.trace → e ∈ st.trace ∨ safeEvent e := by
  intro fuel
  induction fuel with
  | zero => intro st e h; exact Or.inl (by simpa [pollLoop] using h)
  | succ n ih =>
    intro st e h
    have hQsafe : ∀ (x : Event) (l : List Event), x ∈ l ++ [Event.queryStatus] →
        x ∈ l ∨ safeEvent x := by
      intro x l hl
      refine mem_append_safe x hl ?_
      intro x hx
      simp only [List.mem_cons, List.not_mem_nil, or_false] at hx
      subst hx
      simp [safeEvent]
    have hexc : (st.queryResps = [] ∨
        ∃ rest, st.queryResps = Except.error () :: rest) →
        e ∈ st.trace ∨ safeEvent e := by
      intro hcase
      rw [pollLoop_exc st n hcase] at h
      rcases excBranch_trace_safe _ n ih e h with h' | h'
      · rw [nextQuery_trace] at h'
        simp only [St.emit] at h'
        exact hQsafe e st.trace h'
      · exact Or.inr h'
    cases hq : st.queryResps with
    | nil => exact hexc (Or.inl hq)
    | cons r rest =>
      cases r with
      | error u => cases u; exact hexc (Or.inr ⟨rest, hq⟩)
      | ok o =>
        cases o with
        | none =>
          rw [pollLoop_absent_step st n rest hq] at h
          rcases ih _ e h with h' | h'
          · simp only [] at h'
            rcases List.mem_append.mp h' with h3 | h3
            · exact Or.inl h3
            · right
              simp only [List.mem_cons, List.not_mem_nil, or_false] at h3
              rcases h3 with rfl | rfl <;> simp [safeEvent]
          · exact Or.inr h'
        | some s =>
          by_cases hs : s.status ∈ questionStatuses
          · obtain ⟨st1, hst1⟩ : ∃ st1 : St, st1 = { st with queryResps := rest, trace := st.trace ++ [Event.queryStatus] } := ⟨_, rfl⟩
            rw [pollLoop_question st st1 n s rest hq hs hst1] at h
            rcases hqa : qaLoop s st1 n with ⟨st2, out⟩
            rw [hqa] at h
            have hqa_safe : ∀ e', e' ∈ st2.trace →
                e' ∈ st.trace ∨ safeEvent e' := by
              intro e' he'
              have h4 := qaLoop_trace_safe n s st1 e' (by rw [hqa]; exact he')
              rcases h4 with h4 | h4
              · rw [hst1] at h4
                exact hQsafe e' st.trace h4
              · exact Or.inr h4
            cases out with
            | done s' =>
              have h' : e ∈ (pollLoop st2 n).1.trace := h
              rcases ih _ e h' with h'' | h''
              · exact hqa_safe e h''
              · exact Or.inr h''
            | earlyExit => exact hqa_safe e h
            | fuelOut => exact hqa_safe e h
            | errCaught =>
              rcases excBranch_trace_safe st2 n ih e h with h' | h'
              · exact hqa_safe e h'
              · exact Or.inr h'
          · by_cases hb : s.status = "researching" ∨ s.status = "completed"
            · rw [pollLoop_break st n s rest hq hb] at h
              exact hQsafe e st.trace h
            · push_neg at hb
              rw [pollLoop_wait st n s rest hq hs hb.1 hb.2] at h
              rcases ih _ e h with h' | h'
              · simp only [] at h'
                rcases List.mem_append.mp h' with h3 | h3
                · exact Or.inl h3
                · right
                  simp only [List.mem_cons, List.not_mem_nil, or_false] at h3
                  rcases h3 with rfl | rfl <;> simp [safeEvent]
              · exact Or.inr h'

lemma resolveOrStart_trace_safe (env : Env) (wid : String) (st : St) (e : Event)
    (h : e ∈ (resolveOrStart env wid st).1.trace) :
    e ∈ st.trace ∨ safeEvent e := by
  by_cases hres : resumableCond env st
  · rw [resolveOrStart_resumable env wid st hres] at h
    refine mem_append_safe e h ?_
    intro x hx
    simp only [List.mem_cons, List.not_mem_nil, or_false] at hx
    rcases hx with rfl | rfl <;> simp [safeEvent]
  · rw [resolveOrStart_fst_trace_start env wid st hres, afterProbe_trace] at h
    by_cases hg : env.getHandleOk
    · rw [if_pos hg, List.append_assoc] at h
      refine mem_append_safe e h ?_
      intro x hx
      simp only [List.mem_append, List.mem_cons, List.not_mem_nil, or_false] at hx
      rcases hx with (rfl | rfl) | rfl <;> simp [safeEvent]
    · rw [if_neg hg, List.append_assoc] at h
      refine mem_append_safe e h ?_
      intro x hx
      simp only [List.mem_append, List.mem_cons, List.not_mem_nil, or_false] at hx
      rcases hx with rfl | rfl <;> simp [safeEvent]

lemma ensureStarted_trace_safe (query : String) (st : St) (e : Event)
    (h : e ∈ (ensureStarted query st).1.trace) :
    e ∈ st.trace ∨ safeEvent e := by
  have hfin : ∀ (l : List Event), (∀ x ∈ l, safeEvent x) →
      (ensureStarted query st).1.trace = st.trace ++ l →
      e ∈ st.trace ∨ safeEvent e := by
    intro l hl htr
    rw [htr] at h
    exact mem_append_safe e h hl
  cases hq : st.queryResps with
  | nil =>
    refine hfin [Event.queryStatus] ?_ (by rw [ensureStarted_eq_empty query st hq])
    intro x hx
    simp only [List.mem_cons, List.not_mem_nil, or_false] at hx
    subst hx; simp [safeEvent]
  | cons r rest =>
    cases r with
    | error u =>
      cases u
      refine hfin [Event.queryStatus] ?_
        (by rw [ensureStarted_eq_err query st rest hq])
      intro x hx
      simp only [List.mem_cons, List.not_mem_nil, or_false] at hx
      subst hx; simp [safeEvent]
    | ok o =>
      have hsub : ∀ x ∈ [Event.queryStatus, Event.updateStartResearch query],
          safeEvent x := by
        intro x hx
        simp only [List.mem_cons, List.not_mem_nil, or_false] at hx
        rcases hx with rfl | rfl <;> simp [safeEvent]
      cases o with
      | none =>
        exact hfin _ hsub (ensureStarted_trace_submit query st (Or.inl ⟨rest, hq⟩))
      | some s =>
        by_cases hp : s.status = "pending"
        · exact hfin _ hsub
            (ensureStarted_trace_submit query st (Or.inr ⟨s, rest, hq, hp⟩))
        · refine hfin [Event.queryStatus] ?_
            (by rw [ensureStarted_eq_nonpending query st s rest hq hp])
          intro x hx
          simp only [List.mem_cons, List.not_mem_nil, or_false] at hx
          subst hx; simp [safeEvent]

lemma qaLoop_trace_mono :
    ∀ (fuel : Nat) (status : Snapshot) (st : St),
      ∃ t, (qaLoop status st fuel).1.trace = st.trace ++ t := by
  intro fuel
  induction fuel with
  | zero => intro status st; exact ⟨[], by simp [qaLoop]⟩
  | succ n ih =>
    intro status st
    cases hq : status.get_current_question with
    | none => exact ⟨[], by rw [qaLoop_done status st n hq]; simp⟩
    | some q =>
      cases hin : st.inputs with
      | nil =>
        exact ⟨[Event.readInput],
          by rw [qaLoop_input_exhausted status st n q hq hin]⟩
      | cons line rest =>
        by_cases hv : lower (strip line) ∈ exitVocabulary
        · exact ⟨[Event.readInput, Event.signalEnd],
            by rw [qaLoop_exit status st n q line rest hq hin hv]⟩
        · cases hc : st.clarResps with
          | nil =>
            refine ⟨_, by rw [qaLoop_submit_empty status st n q line rest hq hin hv hc]⟩
          | cons r crest =>
            cases r with
            | error u =>
              cases u
              refine ⟨_, by rw [qaLoop_submit_err status st n q line rest crest hq hin hv hc]⟩
            | ok ns =>
              obtain ⟨t, ht⟩ := ih ns ({ st with inputs := rest, clarResps := crest, trace := st.trace ++ [Event.readInput, Event.updateClarification status.current_question_index (if strip line = "" then "No specific preference" else strip line)] } : St)
              refine ⟨[Event.readInput,
                  Event.updateClarification status.current_question_index
                    (if strip line = "" then "No specific preference"
                     else strip line)] ++ t, ?_⟩
              rw [qaLoop_submit_ok status st n q line rest ns crest hq hin hv hc, ht]
              simp

lemma driver_trace_safe (env : Env) (query wid : String) (st : St) (fuel : Nat)
    (e : Event)
    (h : e ∈ (run_interactive_research_with_clarifications env query wid st fuel).1.trace) :
    e ∈ st.trace ∨ safeEvent e ∨
      (e = Event.fetchResult ∧
        (run_interactive_research_with_clarifications env query wid st fuel).2 =
          Outcome.resultReturned env.resultVal) := by
  simp only [run_interactive_research_with_clarifications] at h ⊢
  split at h
  next st1 u heq =>
    rcases resolveOrStart_trace_safe env wid st e (by rw [heq]; exact h) with h' | h'
    · exact Or.inl h'
    · exact Or.inr (Or.inl h')
  next st1 res heq =>
    have h1safe : ∀ x, x ∈ st1.trace → x ∈ st.trace ∨ safeEvent x := by
      intro x hx
      exact resolveOrStart_trace_safe env wid st x (by rw [heq]; exact hx)
    split at h
    next hh =>
      rcases h1safe e h with h' | h'
      · exact Or.inl h'
      · exact Or.inr (Or.inl h')
    next hh =>
      split at h
      next st2 u2 heq2 =>
        have := ensureStarted_trace_safe query st1 e (by rw [heq2]; exact h)
        rcases this with h' | h'
        · rcases h1safe e h' with h'' | h''
          · exact Or.inl h''
          · exact Or.inr (Or.inl h'')
        · exact Or.inr (Or.inl h')
      next st2 u2 heq2 =>
        have h2safe : ∀ x, x ∈ st2.trace → x ∈ st.trace ∨ safeEvent x := by
          intro x hx
          rcases ensureStarted_trace_safe query st1 x (by rw [heq2]; exact hx)
            with h' | h'
          · exact h1safe x h'
          · exact Or.inr h'
        split at h
        next st3 heq3 =>
          -- toResult branch: the trace ends with the result fetch
          have h3safe : ∀ x, x ∈ st3.trace → x ∈ st.trace ∨ safeEvent x := by
            intro x hx
            rcases pollLoop_trace_safe fuel st2 x (by rw [heq3]; exact hx)
              with h' | h'
            · exact h2safe x h'
            · exact Or.inr h'
          have h' : e ∈ st3.trace ++ [Event.fetchResult] := h
          rcases List.mem_append.mp h' with h'' | h''
          · rcases h3safe e h'' with h3 | h3
            · exact Or.inl h3
            · exact Or.inr (Or.inl h3)
          · simp only [List.mem_cons, List.not_mem_nil, or_false] at h''
            subst h''
            refine Or.inr (Or.inr ⟨rfl, ?_⟩)
            rw [if_neg hh]
        next st3 heq3 =>
          rcases pollLoop_trace_safe fuel st2 e (by rw [heq3]; exact h) with h' | h'
          · rcases h2safe e h' with h'' | h''
            · exact Or.inl h''
            · exact Or.inr (Or.inl h'')
          · exact Or.inr (Or.inl h')
        next st3 heq3 =>
          rcases pollLoop_trace_safe fuel st2 e (by rw [heq3]; exact h) with h' | h'
          · rcases h2safe e h' with h'' | h''
            · exact Or.inl h''
            · exact Or.inr (Or.inl h'')
          · exact Or.inr (Or.inl h')
        next st3 heq3 =>
          rcases pollLoop_trace_safe fuel st2 e (by rw [heq3]; exact h) with h' | h'
          · rcases h2safe e h' with h'' | h''
            · exact Or.inl h''
            · exact Or.inr (Or.inl h'')
          · exact Or.inr (Or.inl h')
        next st3 heq3 =>
          rcases pollLoop_trace_safe fuel st2 e (by rw [heq3]; exact h) with h' | h'
          · rcases h2safe e h' with h'' | h''
            · exact Or.inl h''
            · exact Or.inr (Or.inl h'')
          · exact Or.inr (Or.inl h')

/-! ## Claim theorems -/

/-- C1 (amended): a snapshot whose status is in
{failed, timed_out, terminated, canceled} does not make the polling loop exit;
it is handled by the unrecognized-status fallback, which sleeps two time units
and re-enters the loop with the remaining responses. -/
theorem error_terminal_snapshot_repolls (st : St) (fuel : Nat) (s : Snapshot)
    (rest : List (Except Unit (Option Snapshot)))
    (h : st.queryResps = Except.ok (some s) :: rest)
    (hs : s.status ∈ errorTerminalStatuses) :
    pollLoop st (fuel + 1) =
      pollLoop { st with queryResps := rest,
                         trace := st.trace ++ [Event.queryStatus, Event.sleep 2] } fuel := by
  simp only [errorTerminalStatuses, List.mem_cons, List.not_mem_nil, or_false] at hs
  rcases hs with h1 | h1 | h1 | h1 <;>
    simp [pollLoop, St.emit, St.nextQuery, h, h1, questionStatuses]

/-- Witness for C1: with a single `timed_out` snapshot queued, one loop
iteration sleeps and re-enters the loop. -/
theorem error_terminal_snapshot_repolls_witness :
    pollLoop ({ emptySt with
        queryResps := [Except.ok (some { status := "timed_out" })] } : St) 1 =
      pollLoop ({ emptySt with
        trace := [Event.queryStatus, Event.sleep 2] } : St) 0 :=
  error_terminal_snapshot_repolls _ 0 _ [] rfl (by decide)

/-- Counterexample for C1 as stated: the loop sees a `failed` snapshot, does
not exit, polls again (a second status query appears in the trace) and then
leaves the loop on the non-error path when the next snapshot is
`researching`. -/
theorem failed_snapshot_reenters_loop :
    pollLoop ({ emptySt with
        queryResps := [Except.ok (some { status := "failed" }),
                       Except.ok (some { status := "researching" })] } : St) 2 =
      (({ emptySt with
          trace := [Event.queryStatus, Event.sleep 2, Event.queryStatus] } : St),
        LoopOut.toResult) := by decide

/-- C2 (amended): resolve-or-start reuses the existing run (returning the
original id and starting nothing) exactly when the handle is obtained and the
status query returns a snapshot with a non-terminal status; otherwise (lookup
failure, query failure, absent snapshot, or terminal status) it starts a new
run whose id is the original id suffixed with the uniqueness token. -/
theorem resume_reuse_vs_start_new (env : Env) (wid : String) (st : St) :
    (resumableCond env st →
      (resolveOrStart env wid st).2 = Except.ok ⟨true, false, wid⟩ ∧
      ∀ uid, Event.startWorkflow uid ∈ (resolveOrStart env wid st).1.trace →
        Event.startWorkflow uid ∈ st.trace) ∧
    (¬ resumableCond env st →
      Event.startWorkflow (uniqueId wid env.timeToken) ∈
        (resolveOrStart env wid st).1.trace) := by
  constructor
  · intro h
    rw [resolveOrStart_resumable env wid st h]
    constructor
    · rfl
    · intro uid hm
      simp only [List.mem_append, List.mem_cons, List.not_mem_nil, or_false] at hm
      rcases hm with hm | hm | hm
      · exact hm
      · exact absurd hm (by simp)
      · exact absurd hm (by simp)
  · intro h
    rw [resolveOrStart_fst_trace_start env wid st h]
    simp

/-- Witness for C2: a resumable run (status `researching`) is reused and no
new run is started, while a failed handle lookup starts a run under the
suffixed id. -/
theorem resume_reuse_vs_start_new_witness :
    (resolveOrStart (⟨true, true, 7, ""⟩ : Env) "wid"
        ({ emptySt with
            queryResps := [Except.ok (some { status := "researching" })] } : St)).2 =
      Except.ok ⟨true, false, "wid"⟩ ∧
    Event.startWorkflow (uniqueId "wid" 7) ∈
      (resolveOrStart (⟨false, true, 7, ""⟩ : Env) "wid" emptySt).1.trace := by
  constructor
  · exact (resume_reuse_vs_start_new (⟨true, true, 7, ""⟩ : Env) "wid" _).1
      ⟨rfl, { status := "researching" }, [], rfl, by decide⟩ |>.1
  · exact (resume_reuse_vs_start_new (⟨false, true, 7, ""⟩ : Env) "wid" emptySt).2
      (by rintro ⟨hg, _⟩; exact Bool.noConfusion hg)

/-- Counterexample for C2 as stated: the handle is obtained and the status
query succeeds but returns an absent snapshot; the driver starts a new run
although none of the claim's start conditions (lookup failure, query failure,
terminal status) holds. -/
theorem absent_snapshot_starts_new_run :
    Event.startWorkflow (uniqueId "wid" 42) ∈
      (resolveOrStart (⟨true, true, 42, ""⟩ : Env) "wid"
        ({ emptySt with queryResps := [Except.ok none] } : St)).1.trace ∧
    ¬ claimedStartCondition (⟨true, true, 42, ""⟩ : Env)
        ({ emptySt with queryResps := [Except.ok none] } : St) := by
  constructor
  · decide
  · simp [claimedStartCondition, emptySt]

/-- C3: the initial query is submitted via the start-research update exactly
when the queried status is absent or `pending`; for runs already past
`pending`, repeated invocations of ensure-started never submit. -/
theorem ensure_started_idempotent (query : String) (st : St)
    (h0 : ∀ q', Event.updateStartResearch q' ∉ st.trace) :
    ((∃ q', Event.updateStartResearch q' ∈ (ensureStarted query st).1.trace) ↔
      ((∃ rest, st.queryResps = Except.ok none :: rest) ∨
        (∃ s rest, st.queryResps = Except.ok (some s) :: rest ∧
          s.status = "pending"))) ∧
    (∀ n, (∀ r ∈ st.queryResps.take n,
        ∃ s, r = Except.ok (some s) ∧ s.status ≠ "pending") →
      ∀ q', Event.updateStartResearch q' ∉ (ensureStartedIter query n st).trace) := by
  constructor
  · constructor
    · rintro ⟨q', hq'⟩
      by_contra hcond
      push_neg at hcond
      obtain ⟨h1, h2⟩ := hcond
      have htr : (ensureStarted query st).1.trace =
          st.trace ++ [Event.queryStatus] := by
        cases hqr : st.queryResps with
        | nil => rw [ensureStarted_eq_empty query st hqr]
        | cons r rest =>
          cases r with
          | error u => cases u; rw [ensureStarted_eq_err query st rest hqr]
          | ok o =>
            cases o with
            | none => exact absurd hqr (h1 rest)
            | some s =>
              by_cases hp : s.status = "pending"
              · exact absurd hp (h2 s rest hqr)
              · rw [ensureStarted_eq_nonpending query st s rest hqr hp]
      rw [htr] at hq'
      simp only [List.mem_append, List.mem_cons, List.not_mem_nil, or_false] at hq'
      rcases hq' with hq' | hq'
      · exact h0 q' hq'
      · exact Event.noConfusion hq'
    · intro h
      rw [ensureStarted_trace_submit query st h]
      exact ⟨query, by simp⟩
  · intro n hall
    exact ensureStartedIter_no_submit query n st h0 hall

/-- Witness for C3: with a run already at `researching`, two consecutive
ensure-started invocations perform no start-research submission. -/
theorem ensure_started_idempotent_witness :
    Event.updateStartResearch "q" ∉
      (ensureStartedIter "q" 2
        ({ emptySt with
            queryResps := [Except.ok (some { status := "researching" }),
                           Except.ok (some { status := "researching" })] } : St)).trace :=
  (ensure_started_idempotent "q" _ (by simp [emptySt])).2 2
    (by intro r hr
        simp only [emptySt, List.take_succ_cons, List.take, List.mem_cons,
          List.not_mem_nil, or_false] at hr
        rcases hr with hr | hr <;>
          exact ⟨{ status := "researching" }, by rw [hr], by decide⟩) "q"

/-- C7: when the probe concludes a new run must be started and the start
fails, resolve-or-start re-raises the error after exactly one start attempt,
and the whole driver fails session setup with a start failure. -/
theorem start_failure_propagates (env : Env) (wid : String) (st : St)
    (h : ¬ resumableCond env st) (hs : env.startOk = false) :
    (resolveOrStart env wid st).2 = Except.error () ∧
    (resolveOrStart env wid st).1.trace.countP isStartEvent =
      st.trace.countP isStartEvent + 1 ∧
    ∀ query fuel,
      (run_interactive_research_with_clarifications env query wid st fuel).2 =
        Outcome.startFailure := by
  have hr := resolveOrStart_start env wid st h
  rw [hs] at hr
  simp only [Bool.false_eq_true, if_false] at hr
  refine ⟨by rw [hr], ?_, ?_⟩
  · rw [resolveOrStart_fst_trace_start env wid st h, afterProbe_trace]
    by_cases hg : env.getHandleOk <;>
      simp [hg, List.countP_append, isStartEvent]
  · intro query fuel
    simp [run_interactive_research_with_clarifications, hr, St.emit]

/-- Witness for C7: a failed lookup followed by a failed start yields exactly
one start attempt, a re-raised error, and a start-failure outcome. -/
theorem start_failure_propagates_witness :
    (resolveOrStart (⟨false, false, 3, ""⟩ : Env) "wid" emptySt).2 =
      Except.error () ∧
    (resolveOrStart (⟨false, false, 3, ""⟩ : Env) "wid" emptySt).1.trace.countP
        isStartEvent = emptySt.trace.countP isStartEvent + 1 ∧
    (run_interactive_research_with_clarifications (⟨false, false, 3, ""⟩ : Env)
        "q" "wid" emptySt 5).2 = Outcome.startFailure := by
  have h := start_failure_propagates (⟨false, false, 3, ""⟩ : Env) "wid" emptySt
    (by rintro ⟨hg, _⟩; exact Bool.noConfusion hg) rfl
  exact ⟨h.1, h.2.1, h.2.2 "q" 5⟩

/-- C9: the legacy entry point returns exactly the result of the
clarifications driver on the same arguments. -/
theorem legacy_entry_point_equivalent (env : Env) (query workflow_id : String)
    (st : St) (fuel : Nat) :
    run_interactive_research env query workflow_id st fuel =
      run_interactive_research_with_clarifications env query workflow_id st fuel :=
  rfl

/-- C10: a successful status query returning an absent snapshot makes the
loop sleep one time unit and re-poll with the remaining responses; it does
not exit, consult the coarse status, or take the error path. -/
theorem absent_snapshot_repolls (st : St) (fuel : Nat)
    (rest : List (Except Unit (Option Snapshot)))
    (h : st.queryResps = Except.ok none :: rest) :
    pollLoop st (fuel + 1) =
      pollLoop { st with queryResps := rest,
                         trace := st.trace ++ [Event.queryStatus, Event.sleep 1] } fuel := by
  simp [pollLoop, St.emit, St.nextQuery, h]

/-- Witness for C10: one iteration on an absent snapshot sleeps one unit and
re-enters the loop. -/
theorem absent_snapshot_repolls_witness :
    pollLoop ({ emptySt with queryResps := [Except.ok none] } : St) 1 =
      pollLoop ({ emptySt with
        trace := [Event.queryStatus, Event.sleep 1] } : St) 0 :=
  absent_snapshot_repolls _ 0 [] rfl

/-- C4: an exit-vocabulary answer (case-insensitive, trimmed) makes the inner
Q&A loop send exactly one termination signal and return immediately as a
successful early exit; the polling loop propagates the early exit, and an
early-exit driver run never fetches the result. -/
theorem exit_vocabulary_early_exit :
    (∀ (status : Snapshot) (st : St) (fuel : Nat) (q line : String)
        (rest : List String),
      status.get_current_question = some q →
      st.inputs = line :: rest →
      lower (strip line) ∈ exitVocabulary →
      qaLoop status st (fuel + 1) =
        ({ st with inputs := rest,
                   trace := st.trace ++ [Event.readInput, Event.signalEnd] },
          QaOut.earlyExit)) ∧
    (∀ (st st1 st2 : St) (fuel : Nat) (s : Snapshot)
        (rest : List (Except Unit (Option Snapshot))),
      st.queryResps = Except.ok (some s) :: rest →
      s.status ∈ questionStatuses →
      st1 = { st with queryResps := rest,
                      trace := st.trace ++ [Event.queryStatus] } →
      qaLoop s st1 fuel = (st2, QaOut.earlyExit) →
      pollLoop st (fuel + 1) = (st2, LoopOut.earlyExit)) ∧
    (∀ (env : Env) (query wid : String) (st : St) (fuel : Nat),
      Event.fetchResult ∉ st.trace →
      (run_interactive_research_with_clarifications env query wid st fuel).2 =
        Outcome.earlyExit →
      Event.fetchResult ∉
        (run_interactive_research_with_clarifications env query wid st fuel).1.trace) := by
  refine ⟨?_, ?_, ?_⟩
  · intro status st fuel q line rest hq hin hv
    exact qaLoop_exit status st fuel q line rest hq hin hv
  · intro st st1 st2 fuel s rest hq hs hst1 hqa
    rw [pollLoop_question st st1 fuel s rest hq hs hst1, hqa]
  · intro env query wid st fuel h0 hout hmem
    rcases driver_trace_safe env query wid st fuel _ hmem with h | h | ⟨_, hres⟩
    · exact h0 h
    · exact h.1 rfl
    · rw [hout] at hres
      exact Outcome.noConfusion hres

/-- C5: a non-exit answer is submitted at the snapshot's current question
index; the empty trimmed input is submitted as the sentinel
"No specific preference", non-empty trimmed input is submitted unchanged, and
an empty-string answer is never submitted anywhere in a driver run. -/
theorem answer_submission_sentinel :
    (∀ (status : Snapshot) (st : St) (fuel : Nat) (q line : String)
        (rest : List String),
      status.get_current_question = some q →
      st.inputs = line :: rest →
      lower (strip line) ∉ exitVocabulary →
      ∃ st' out tail,
        qaLoop status st (fuel + 1) = (st', out) ∧
        st'.trace = st.trace ++ [Event.readInput,
          Event.updateClarification status.current_question_index
            (if strip line = "" then "No specific preference" else strip line)]
          ++ tail) ∧
    (∀ (env : Env) (query wid : String) (st : St) (fuel : Nat) (i : Nat),
      Event.updateClarification i "" ∉ st.trace →
      Event.updateClarification i "" ∉
        (run_interactive_research_with_clarifications env query wid st fuel).1.trace) := by
  constructor
  · intro status st fuel q line rest hq hin hv
    cases hc : st.clarResps with
    | nil =>
      rw [qaLoop_submit_empty status st fuel q line rest hq hin hv hc]
      exact ⟨_, _, [], rfl, by simp⟩
    | cons r crest =>
      cases r with
      | error u =>
        cases u
        rw [qaLoop_submit_err status st fuel q line rest crest hq hin hv hc]
        exact ⟨_, _, [], rfl, by simp⟩
      | ok ns =>
        rw [qaLoop_submit_ok status st fuel q line rest ns crest hq hin hv hc]
        obtain ⟨t, ht⟩ := qaLoop_trace_mono fuel ns
          ({ st with inputs := rest, clarResps := crest, trace := st.trace ++ [Event.readInput, Event.updateClarification status.current_question_index (if strip line = "" then "No specific preference" else strip line)] } : St)
        refine ⟨_, _, t, rfl, ?_⟩
        rw [ht]
  · intro env query wid st fuel i h0 hmem
    rcases driver_trace_safe env query wid st fuel _ hmem with h | h | ⟨heq, _⟩
    · exact h0 h
    · exact h.2 i rfl
    · exact Event.noConfusion heq

/-- C6: when a status query or a clarification update inside one polling
iteration raises, the driver consults the coarse describe status: if it is
not a running state the loop ends with the terminal exit, otherwise the
driver sleeps and retries without surfacing the exception. -/
theorem poll_exception_coarse_recovery :
    (∀ (st : St) (fuel : Nat) (rest : List (Except Unit (Option Snapshot)))
        (d : String) (drest : List String),
      st.queryResps = Except.error () :: rest →
      st.describeResps = d :: drest →
      pollLoop st (fuel + 1) =
        (if d ∈ runningCoarseStatuses then
          pollLoop { st with queryResps := rest, describeResps := drest,
                             trace := st.trace ++ [Event.queryStatus,
                               Event.describe, Event.sleep 2] } fuel
         else
          ({ st with queryResps := rest, describeResps := drest,
                     trace := st.trace ++ [Event.queryStatus,
                       Event.describe] },
            LoopOut.terminalExit))) ∧
    (∀ (st st1 st2 : St) (fuel : Nat) (s : Snapshot)
        (rest : List (Except Unit (Option Snapshot)))
        (d : String) (drest : List String),
      st.queryResps = Except.ok (some s) :: rest →
      s.status ∈ questionStatuses →
      st1 = { st with queryResps := rest,
                      trace := st.trace ++ [Event.queryStatus] } →
      qaLoop s st1 fuel = (st2, QaOut.errCaught) →
      st2.describeResps = d :: drest →
      pollLoop st (fuel + 1) =
        (if d ∈ runningCoarseStatuses then
          pollLoop { st2 with describeResps := drest,
                              trace := st2.trace ++ [Event.describe,
                                Event.sleep 2] } fuel
         else
          ({ st2 with describeResps := drest,
                      trace := st2.trace ++ [Event.describe] },
            LoopOut.terminalExit))) := by
  constructor
  · intro st fuel rest d drest hq hd
    rw [pollLoop_exc st fuel (Or.inr ⟨rest, hq⟩)]
    have hst : ((st.emit Event.queryStatus).nextQuery).2 =
        { st with queryResps := rest,
                  trace := st.trace ++ [Event.queryStatus] } := by
      simp [St.emit, St.nextQuery, hq]
    rw [hst, describeCheck_cons _ d drest (by simpa using hd)]
    by_cases hr : d ∈ runningCoarseStatuses <;>
      simp [hr, St.emit]
  · intro st st1 st2 fuel s rest d drest hq hs hst1 hqa hd
    rw [pollLoop_question st st1 fuel s rest hq hs hst1, hqa]
    dsimp only
    rw [describeCheck_cons st2 d drest hd]
    by_cases hr : d ∈ runningCoarseStatuses <;>
      simp [hr, St.emit]

/-- Witness for C4: answering " EXIT " to a pending question signals
termination and exits; a full driver run ending in the early exit never
fetches the result. -/
theorem exit_vocabulary_early_exit_witness :
    qaLoop (⟨"collecting_answers", some ["Q1"], 0, none⟩ : Snapshot)
        ({ emptySt with inputs := [" EXIT "] } : St) 1 =
      (({ emptySt with
          trace := [Event.readInput, Event.signalEnd] } : St), QaOut.earlyExit) ∧
    Event.fetchResult ∉
      (run_interactive_research_with_clarifications (⟨true, true, 0, "res"⟩ : Env)
        "q" "wid"
        ({ emptySt with
            queryResps := [Except.ok (some { status := "researching" }),
                           Except.ok (some { status := "researching" }),
                           Except.ok (some ⟨"collecting_answers", some ["Q1"], 0, none⟩)],
            inputs := ["exit"] } : St) 2).1.trace := by
  constructor
  · exact exit_vocabulary_early_exit.1 _ _ 0 "Q1" " EXIT " [] rfl rfl (by decide)
  · exact exit_vocabulary_early_exit.2.2 _ "q" "wid" _ 2 (by simp [emptySt])
      (by decide)

/-- Witness for C5: an empty answer is submitted as the sentinel, and a full
driver run containing an empty answer never records an empty-string
submission. -/
theorem answer_submission_sentinel_witness :
    (∃ st' out tail,
      qaLoop (⟨"collecting_answers", some ["Q1"], 0, none⟩ : Snapshot)
          ({ emptySt with
              inputs := [""],
              clarResps := [Except.ok ⟨"collecting_answers", some ["Q1"], 1, none⟩] } : St) 1 =
        (st', out) ∧
      st'.trace = [Event.readInput, Event.updateClarification 0
          (if strip "" = "" then "No specific preference" else strip "")] ++ tail) ∧
    Event.updateClarification 0 "" ∉
      (run_interactive_research_with_clarifications (⟨true, true, 0, "res"⟩ : Env)
        "q" "wid"
        ({ emptySt with
            queryResps := [Except.ok (some { status := "researching" }),
                           Except.ok (some { status := "researching" }),
                           Except.ok (some ⟨"collecting_answers", some ["Q1"], 0, none⟩)],
            inputs := [""],
            clarResps := [Except.ok ⟨"collecting_answers", some ["Q1"], 1, none⟩],
            describeResps := ["COMPLETED"] } : St) 3).1.trace := by
  constructor
  · exact answer_submission_sentinel.1 _ _ 0 "Q1" "" [] rfl rfl (by decide)
  · exact answer_submission_sentinel.2 _ "q" "wid" _ 3 0 (by simp [emptySt])

/-- Witness for C6: a failed query followed by coarse status RUNNING retries
after a sleep; followed by coarse status COMPLETED the loop exits with the
terminal condition. -/
theorem poll_exception_coarse_recovery_witness :
    pollLoop ({ emptySt with
        queryResps := [Except.error ()],
        describeResps := ["RUNNING"] } : St) 1 =
      pollLoop ({ emptySt with
        trace := [Event.queryStatus, Event.describe, Event.sleep 2] } : St) 0 ∧
    pollLoop ({ emptySt with
        queryResps := [Except.error ()],
        describeResps := ["COMPLETED"] } : St) 1 =
      (({ emptySt with
          trace := [Event.queryStatus, Event.describe] } : St),
        LoopOut.terminalExit) := by
  constructor
  · exact poll_exception_coarse_recovery.1 _ 0 [] "RUNNING" [] rfl rfl
  · exact poll_exception_coarse_recovery.1 _ 0 [] "COMPLETED" [] rfl rfl

lemma upsert_not_mem (acc : List (String × String)) (k v : String)
    (h : ∀ p ∈ acc, p.1 ≠ k) :
    upsert acc k v = acc ++ [(k, v)] := by
  have hany : acc.any (fun p => p.1 = k) = false := by
    simp only [List.any_eq_false, decide_eq_true_eq]
    exact h
  simp [upsert, hany]

lemma parse_foldl_nodup :
    ∀ (args : List String) (acc : List (String × String)),
      ((acc.map Prod.fst) ++ ((args.filterMap parseArg).map Prod.fst)).Nodup →
      args.foldl
        (fun responses arg =>
          match parseArg arg with
          | none => responses
          | some kv => upsert responses kv.1 kv.2) acc =
        acc ++ args.filterMap parseArg := by
  intro args
  induction args with
  | nil => intro acc _; simp
  | cons a args ih =>
    intro acc h
    cases hp : parseArg a with
    | none =>
      simp only [List.foldl_cons, hp]
      have h' := h
      rw [List.filterMap_cons, hp] at h'
      simpa [List.filterMap_cons, hp] using ih acc h'
    | some kv =>
      rw [List.filterMap_cons, hp] at h
      simp only [List.map_cons] at h
      have hkeys : ((acc ++ [kv]).map Prod.fst ++
          (args.filterMap parseArg).map Prod.fst).Nodup := by
        simp only [List.map_append, List.map_cons, List.map_nil,
          List.append_assoc, List.singleton_append]
        exact h
      have hknotin : ∀ p ∈ acc, p.1 ≠ kv.1 := by
        intro p hp' heq
        have hmem : kv.1 ∈ acc.map Prod.fst :=
          List.mem_map.mpr ⟨p, hp', heq⟩
        have := (List.nodup_append.mp h).2.2
        exact this hmem (by simp)
      simp only [List.foldl_cons, hp]
      rw [upsert_not_mem acc kv.1 kv.2 hknotin]
      have := ih (acc ++ [(kv.1, kv.2)]) (by simpa using hkeys)
      rw [this]
      simp [List.filterMap_cons, hp]

/-- C8 (amended): parse-clarifications silently skips arguments without the
separator, and when the keys of the separator-containing arguments are
pairwise distinct it returns exactly one entry per such argument, in order,
with the key the text before the first separator and the value the remainder
(when a key repeats, the dict keeps a single entry for it). -/
theorem parse_clarifications_entries (args : List String)
    (h : ((args.filterMap parseArg).map Prod.fst).Nodup) :
    parse_clarifications args = args.filterMap parseArg := by
  have := parse_foldl_nodup args [] (by simpa using h)
  simpa [parse_clarifications] using this

/-- Witness for C8: three arguments, one without the separator, parse to one
entry per separator-containing argument with first-separator splitting. -/
theorem parse_clarifications_entries_witness :
    parse_clarifications ["a=1", "b=2=3", "junk"] = [("a", "1"), ("b", "2=3")] := by
  have := parse_clarifications_entries ["a=1", "b=2=3", "junk"] (by decide)
  rw [this]
  decide

/-- Counterexample for C8 as stated: two arguments share the key `a`; the
resulting mapping has a single entry (the last value wins), not one entry per
separator-containing argument, and the entry described by the first argument
is absent. -/
theorem parse_clarifications_duplicate_key :
    parse_clarifications ["a=1", "a=2"] = [("a", "2")] ∧
    ("a", "1") ∉ parse_clarifications ["a=1", "a=2"] := by decide

end InteractiveResearch
